import Mathlib

/-!
Shallow embedding of the Credit Ledger & Redemption Engine of the
OSINT_LOOKUP repository (`src/database.py`, plus the account-registration
path of `src/main.py`), together with theorems settling the frozen claims.

Conventions of the embedding:
* SQLite tables become association lists keyed by the table's primary key;
  `UPDATE ... WHERE key = ?` updates every row with that key, `DELETE`
  filters, `INSERT OR REPLACE` erases then appends.
* Machine time (`time.time()`, `datetime.now()`) is a `Nat` number of
  seconds passed explicitly to each operation that reads the clock.
* Python `int` database values (credits, amounts, use counters) are `Int`.
* `aiosqlite` failures are not modelled: every operation is the pure state
  transformer of its SQL statements executed without storage errors.
-/

namespace OsintLookup

/-- Row of the `users` table (`init_db`, src/database.py lines 42-53).
`user_id` is the association-list key and is kept outside the structure. -/
structure User where
  username : Option String
  credits : Int
  joinedDate : Nat
  referrerId : Option Nat
  isBanned : Bool
  totalEarned : Int
  lastActive : Nat
  deriving Repr, DecidableEq

/-- Row of the `redeem_codes` table (`init_db`, lines 66-76); the `code`
text key is kept outside the structure. -/
structure Code where
  amount : Int
  maxUses : Int
  currentUses : Int
  expiryMinutes : Option Int
  createdDate : Nat
  isActive : Bool
  deriving Repr, DecidableEq

/-- Row of the `redeem_logs` table (lines 79-87); `UNIQUE(user_id, code)`
is enforced by the insert operation, not by the type. -/
structure LogEntry where
  userId : Nat
  code : String
  claimedDate : Nat
  deriving Repr, DecidableEq

/-- The database state: the three tables the claims are about.  The other
tables created by `init_db` (admins, stats, lookup_logs) are untouched by
every operation the claims mention and are omitted. -/
structure DB where
  users : List (Nat × User)
  codes : List (String × Code)
  logs : List LogEntry
  deriving Repr, DecidableEq

/-- The empty database produced by `init_db` on a fresh file. -/
def DB.empty : DB := ⟨[], [], []⟩

/-- Replace the `users` table. -/
def DB.setUsers (db : DB) (l : List (Nat × User)) : DB :=
  ⟨l, db.codes, db.logs⟩

/-- Replace the `codes` table. -/
def DB.setCodes (db : DB) (l : List (String × Code)) : DB :=
  ⟨db.users, l, db.logs⟩

/-- Replace the `logs` table. -/
def DB.setLogs (db : DB) (l : List LogEntry) : DB :=
  ⟨db.users, db.codes, l⟩

/-- `SELECT ... WHERE key = ?` returning the first matching row. -/
def lookupA {κ α : Type} [DecidableEq κ] (k : κ) : List (κ × α) → Option α
  | [] => none
  | (k', v) :: l => if k = k' then some v else lookupA k l

/-- `UPDATE ... SET ... WHERE key = ?`: rewrite every row keyed `k`. -/
def updateA {κ α : Type} [DecidableEq κ] (k : κ) (f : α → α) :
    List (κ × α) → List (κ × α)
  | [] => []
  | (k', v) :: l =>
      (if k = k' then (k', f v) else (k', v)) :: updateA k f l

/-- `DELETE FROM ... WHERE key = ?`. -/
def eraseA {κ α : Type} [DecidableEq κ] (k : κ) :
    List (κ × α) → List (κ × α)
  | [] => []
  | (k', v) :: l => if k = k' then eraseA k l else (k', v) :: eraseA k l

/-- `INSERT OR REPLACE`: drop any row with the key, append the new row. -/
def replaceA {κ α : Type} [DecidableEq κ] (k : κ) (v : α)
    (l : List (κ × α)) : List (κ × α) :=
  eraseA k l ++ [(k, v)]

/-! ### Duration parser (`parse_time_string`, src/database.py lines 9-37) -/

/-- Value of a decimal digit character. -/
def digitVal (c : Char) : Nat := c.toNat - 48

/-- One step of `re.search (r'(\d+)X', s)` for a single unit letter `X`:
scan left to right carrying the value of the pending maximal digit run
(`cur`); the first maximal digit run immediately followed by `target`
is the leftmost match, and greediness makes its group the whole run. -/
def searchNumBefore (target : Char) : Option Nat → List Char → Option Nat
  | _, [] => none
  | cur, c :: cs =>
      if c.isDigit then
        searchNumBefore target (some ((cur.getD 0) * 10 + digitVal c)) cs
      else
        match cur with
        | some n =>
            if c = target then some n else searchNumBefore target none cs
        | none => searchNumBefore target none cs

/-- Python `str.lower()` restricted to ASCII, as the inputs here are:
lower-case every character of the string. -/
def strLower (s : String) : String :=
  ⟨s.data.map Char.toLower⟩

/-- Python `str.isdigit` restricted to ASCII, as the inputs here are. -/
def isDigitStr (s : String) : Bool :=
  s ≠ "" && s.data.all Char.isDigit

/-- `int(s)` for a digit string. -/
def natOfDigits (s : String) : Nat :=
  s.data.foldl (fun acc c => acc * 10 + digitVal c) 0

/-- `parse_time_string` (src/database.py lines 9-37).  `none` input models
the Python `None` argument; the result `none` models returning `None`. -/
def parse_time_string (timeStr : Option String) : Option Nat :=
  match timeStr with
  | none => none
  | some s =>
      if s = "" ∨ strLower s = "none" then none
      else
        let t := strLower s
        let hourMatch := searchNumBefore 'h' none t.data
        let minuteMatch := searchNumBefore 'm' none t.data
        let m1 := match hourMatch with
          | some h => h * 60
          | none => 0
        let m2 := m1 + (minuteMatch.getD 0)
        let total :=
          if hourMatch = none ∧ minuteMatch = none ∧ isDigitStr t then
            natOfDigits t
          else m2
        if total > 0 then some total else none

/-! ### Account store operations (src/database.py) -/

/-- `add_user` (lines 119-132): no-op when the id exists, otherwise insert
a fresh row with 5 credits and 0 total_earned. -/
def add_user (db : DB) (userId : Nat) (username : Option String)
    (referrerId : Option Nat) (now : Nat) : DB :=
  match lookupA userId db.users with
  | some _ => db
  | none =>
      db.setUsers (db.users ++
        [(userId,
          { username := username, credits := 5, joinedDate := now,
            referrerId := referrerId, isBanned := false,
            totalEarned := 0, lastActive := now })])

/-- `update_credits` (lines 134-141): positive amounts also raise
`total_earned`; non-positive amounts touch only `credits`. -/
def update_credits (db : DB) (userId : Nat) (amount : Int) : DB :=
  if amount > 0 then
    db.setUsers (updateA userId
      (fun u => { u with credits := u.credits + amount,
                         totalEarned := u.totalEarned + amount })
      db.users)
  else
    db.setUsers (updateA userId
      (fun u => { u with credits := u.credits + amount }) db.users)

/-- `set_ban_status` (lines 143-146). -/
def set_ban_status (db : DB) (userId : Nat) (status : Bool) : DB :=
  db.setUsers (updateA userId (fun u => { u with isBanned := status })
    db.users)

/-! ### Code store operations -/

/-- `create_redeem_code` (lines 148-158): `INSERT OR REPLACE` whose column
list omits `current_uses`, so a replaced row gets the column default 0,
and `is_active` is written as 1. -/
def create_redeem_code (db : DB) (code : String) (amount maxUses : Int)
    (expiryMinutes : Option Int) (now : Nat) : DB :=
  db.setCodes (replaceA code
    { amount := amount, maxUses := maxUses, currentUses := 0,
      expiryMinutes := expiryMinutes, createdDate := now,
      isActive := true } db.codes)

/-- `deactivate_code` (lines 324-327). -/
def deactivate_code (db : DB) (code : String) : DB :=
  db.setCodes (updateA code (fun c => { c with isActive := false })
    db.codes)

/-- `delete_redeem_code` (lines 319-322). -/
def delete_redeem_code (db : DB) (code : String) : DB :=
  db.setCodes (eraseA code db.codes)

/-- `delete_user` (lines 394-402): drop the user row, drop the user's
redeem logs, null out `referrer_id` on rows referring to the user. -/
def delete_user (db : DB) (userId : Nat) : DB :=
  { users := (eraseA userId db.users).map
      (fun p => if p.2.referrerId = some userId then
          (p.1, { p.2 with referrerId := none }) else p),
    codes := db.codes,
    logs := db.logs.filter (fun e => e.userId ≠ userId) }

/-! ### Redemption engine (`redeem_code_db`, lines 160-229) -/

/-- Outcome of `redeem_code_db`: the string returns of lines 170-197 plus
the credited amount returned on line 225. -/
inductive RedeemResult where
  | alreadyClaimed
  | invalid
  | inactive
  | limitReached
  | expired
  | success (amount : Int)
  deriving Repr, DecidableEq

/-- `SELECT 1 FROM redeem_logs WHERE user_id = ? AND code = ?` non-empty. -/
def hasClaimed (db : DB) (userId : Nat) (code : String) : Bool :=
  db.logs.any (fun e => e.userId = userId && e.code = code)

/-- `INSERT OR IGNORE INTO redeem_logs` under `UNIQUE(user_id, code)`. -/
def insertLog (db : DB) (userId : Nat) (code : String) (now : Nat) : DB :=
  if hasClaimed db userId code then db
  else db.setLogs (db.logs ++ [⟨userId, code, now⟩])

/-- The expiry test of lines 193-197: an expiry is set and positive, and
`datetime.now()` is past `created_dt + timedelta(minutes=expiry)`. -/
def isExpired (c : Code) (now : Nat) : Bool :=
  match c.expiryMinutes with
  | some e => decide (0 < e) && decide (c.createdDate + 60 * e.toNat < now)
  | none => false

/-- The validation phase of `redeem_code_db` (lines 165-197): everything
the coroutine does before `BEGIN TRANSACTION`, reading a snapshot of the
store.  `Sum.inl r` is an early return `r`; `Sum.inr a` means all checks
passed and the transaction will run with code amount `a`. -/
def redeemCheck (db : DB) (userId : Nat) (code : String) (now : Nat) :
    RedeemResult ⊕ Int :=
  if hasClaimed db userId code then Sum.inl .alreadyClaimed
  else
    match lookupA code db.codes with
    | none => Sum.inl .invalid
    | some c =>
        if ¬ c.isActive then Sum.inl .inactive
        else if c.currentUses ≥ c.maxUses then Sum.inl .limitReached
        else if isExpired c now then Sum.inl .expired
        else Sum.inr c.amount

/-- The transaction body of `redeem_code_db` (lines 199-224): increment
`current_uses`, add credits, add to `total_earned`, insert the log row. -/
def redeemApply (db : DB) (userId : Nat) (code : String) (amount : Int)
    (now : Nat) : DB :=
  let db1 := db.setCodes (updateA code
    (fun c => { c with currentUses := c.currentUses + 1 }) db.codes)
  let db2 := db1.setUsers (updateA userId
    (fun u => { u with credits := u.credits + amount }) db1.users)
  let db3 := db2.setUsers (updateA userId
    (fun u => { u with totalEarned := u.totalEarned + amount }) db2.users)
  insertLog db3 userId code now

/-- `redeem_code_db` run without interference: the check phase followed
immediately by the transaction when every check passes. -/
def redeem_code_db (db : DB) (userId : Nat) (code : String) (now : Nat) :
    RedeemResult × DB :=
  match redeemCheck db userId code now with
  | Sum.inl r => (r, db)
  | Sum.inr a => (.success a, redeemApply db userId code a now)

/-! ### Registration path of the bot layer
(`start_command`, src/main.py lines 173-199) -/

/-- The account-creation block of `start_command`: when `get_user` finds
nothing, parse the referrer (discarded when equal to the caller's own id),
`add_user`, then credit the referrer 3 via `update_credits` — but only
when `referrer_id` is truthy (main.py line 194 reads `if referrer_id:`,
and Python treats the integer 0 as falsy, so a referrer id of 0 is stored
on the new row yet receives no credit). -/
def cmd_start_register (db : DB) (userId : Nat) (username : Option String)
    (argReferrer : Option Nat) (now : Nat) : DB :=
  match lookupA userId db.users with
  | some _ => db
  | none =>
      let rid := match argReferrer with
        | some r => if r = userId then none else some r
        | none => none
      let db1 := add_user db userId username rid now
      match rid with
      | some r => if r = 0 then db1 else update_credits db1 r 3
      | none => db1

/-! ### Association-list lemmas -/

theorem lookupA_updateA_self {κ α : Type} [DecidableEq κ] (k : κ)
    (f : α → α) (l : List (κ × α)) :
    lookupA k (updateA k f l) = (lookupA k l).map f := by
  induction l with
  | nil => rfl
  | cons p l ih =>
      obtain ⟨k', v⟩ := p
      rw [updateA]
      by_cases h : k = k'
      · subst h
        rw [if_pos rfl]
        simp [lookupA]
      · rw [if_neg h]
        simp [lookupA, h, ih]

theorem lookupA_updateA_ne {κ α : Type} [DecidableEq κ] {k k' : κ}
    (f : α → α) (l : List (κ × α)) (h : k ≠ k') :
    lookupA k (updateA k' f l) = lookupA k l := by
  induction l with
  | nil => rfl
  | cons p l ih =>
      obtain ⟨k'', v⟩ := p
      rw [updateA]
      by_cases h2 : k' = k''
      · subst h2
        rw [if_pos rfl]
        simp [lookupA, h, ih]
      · rw [if_neg h2]
        by_cases h3 : k = k'' <;> simp [lookupA, h3, ih]

theorem lookupA_eraseA_self {κ α : Type} [DecidableEq κ] (k : κ)
    (l : List (κ × α)) : lookupA k (eraseA k l) = none := by
  induction l with
  | nil => rfl
  | cons p l ih =>
      obtain ⟨k', v⟩ := p
      rw [eraseA]
      by_cases h : k = k'
      · rw [if_pos h]; exact ih
      · rw [if_neg h]
        simp [lookupA, h, ih]

theorem lookupA_eraseA_ne {κ α : Type} [DecidableEq κ] {k k' : κ}
    (l : List (κ × α)) (h : k ≠ k') :
    lookupA k (eraseA k' l) = lookupA k l := by
  induction l with
  | nil => rfl
  | cons p l ih =>
      obtain ⟨k'', v⟩ := p
      rw [eraseA]
      by_cases h2 : k' = k''
      · subst h2
        rw [if_pos rfl]
        simp [lookupA, h, ih]
      · rw [if_neg h2]
        by_cases h3 : k = k'' <;> simp [lookupA, h3, ih]

theorem lookupA_append_of_none {κ α : Type} [DecidableEq κ] {k : κ}
    {l₁ : List (κ × α)} (l₂ : List (κ × α)) (h : lookupA k l₁ = none) :
    lookupA k (l₁ ++ l₂) = lookupA k l₂ := by
  induction l₁ with
  | nil => rfl
  | cons p l ih =>
      obtain ⟨k', v⟩ := p
      by_cases h2 : k = k'
      · simp [lookupA, h2] at h
      · simp [lookupA, h2] at h ⊢; exact ih h

theorem lookupA_append_of_some {κ α : Type} [DecidableEq κ] {k : κ}
    {l₁ : List (κ × α)} {v : α} (l₂ : List (κ × α))
    (h : lookupA k l₁ = some v) : lookupA k (l₁ ++ l₂) = some v := by
  induction l₁ with
  | nil => simp [lookupA] at h
  | cons p l ih =>
      obtain ⟨k', w⟩ := p
      by_cases h2 : k = k' <;> simp [lookupA, h2] at h ⊢
      · exact h
      · exact ih h

theorem lookupA_replaceA_self {κ α : Type} [DecidableEq κ] (k : κ) (v : α)
    (l : List (κ × α)) : lookupA k (replaceA k v l) = some v := by
  have h := lookupA_eraseA_self k l
  rw [replaceA, lookupA_append_of_none _ h]
  simp [lookupA]

theorem lookupA_replaceA_ne {κ α : Type} [DecidableEq κ] {k k' : κ} (v : α)
    (l : List (κ × α)) (h : k ≠ k') :
    lookupA k (replaceA k' v l) = lookupA k l := by
  rw [replaceA]
  cases h2 : lookupA k (eraseA k' l) with
  | none =>
      rw [lookupA_append_of_none _ h2, lookupA, if_neg h, lookupA]
      rw [lookupA_eraseA_ne l h] at h2
      exact h2.symm
  | some w =>
      rw [lookupA_append_of_some _ h2]
      rw [lookupA_eraseA_ne l h] at h2
      exact h2.symm

theorem updateA_eq_map {κ α : Type} [DecidableEq κ] (k : κ) (f : α → α)
    (l : List (κ × α)) :
    updateA k f l = l.map (fun p => if p.1 = k then (p.1, f p.2) else p) := by
  induction l with
  | nil => rfl
  | cons p l ih =>
      obtain ⟨k', v⟩ := p
      rw [updateA]
      by_cases h : k = k'
      · subst h
        rw [if_pos rfl]
        simp [ih]
      · have h2 : k' ≠ k := fun hh => h hh.symm
        rw [if_neg h]
        simp [h2, ih]

/-! ### Claim C9: duration parsing -/

/-- Helper for C9: `parse_time_string` never reports a zero-minute expiry;
any input whose extracted total is 0 yields `none`. -/
theorem parse_time_string_ne_some_zero (s : String) :
    parse_time_string (some s) ≠ some 0 := by
  intro h
  rw [parse_time_string] at h
  split at h
  · exact Option.noConfusion h
  · simp only [] at h
    split at h
    all_goals split at h
    all_goals
      first
        | exact Option.noConfusion h
        | (rename_i hpos
           have h0 := Option.some.inj h
           omega)

/-- C9: `parse_time_string` follows the spec's grammar on its test
vectors: hour and minute components in either order sum into minutes, a
bare number is minutes, and absent/empty/"none"/zero-total inputs all
parse to no expiry rather than an error. -/
theorem C9_parse_duration :
    parse_time_string (some "1h30m") = some 90 ∧
    parse_time_string (some "2h") = some 120 ∧
    parse_time_string (some "45m") = some 45 ∧
    parse_time_string (some "30m1h") = some 90 ∧
    parse_time_string (some "24h") = some 1440 ∧
    parse_time_string (some "90") = some 90 ∧
    parse_time_string none = none ∧
    parse_time_string (some "") = none ∧
    parse_time_string (some "none") = none ∧
    parse_time_string (some "NoNe") = none ∧
    parse_time_string (some "abc") = none ∧
    parse_time_string (some "0") = none ∧
    (∀ s : String, parse_time_string (some s) ≠ some 0) :=
  ⟨by decide, by decide, by decide, by decide, by decide, by decide, rfl,
   by decide, by decide, by decide, by decide, by decide,
   parse_time_string_ne_some_zero⟩

/-! ### Claim C10: signup grant of 5 credits -/

/-- C10: `add_user` on an id not yet present creates the account with
balance exactly 5 and `total_earned` 0, so a fresh account's balance
exceeds its recorded positive-grant total by 5. -/
theorem C10_signup_grant (db : DB) (userId : Nat) (username : Option String)
    (referrerId : Option Nat) (now : Nat)
    (h : lookupA userId db.users = none) :
    lookupA userId (add_user db userId username referrerId now).users =
      some { username := username, credits := 5, joinedDate := now,
             referrerId := referrerId, isBanned := false, totalEarned := 0,
             lastActive := now } ∧
    (∀ u, lookupA userId (add_user db userId username referrerId now).users =
        some u → u.credits = u.totalEarned + 5) := by
  have key : lookupA userId (add_user db userId username referrerId now).users =
      some { username := username, credits := 5, joinedDate := now,
             referrerId := referrerId, isBanned := false, totalEarned := 0,
             lastActive := now } := by
    rw [add_user, h, DB.setUsers, lookupA_append_of_none _ h]
    simp [lookupA]
  refine ⟨key, fun u hu => ?_⟩
  rw [key] at hu
  cases Option.some.inj hu
  rfl

/-- Witness for C10 at a concrete fresh database. -/
theorem C10_signup_grant_witness :
    lookupA 1 (DB.empty).users = none ∧
    lookupA 1 (add_user DB.empty 1 none none 0).users =
      some { username := none, credits := 5, joinedDate := 0,
             referrerId := none, isBanned := false, totalEarned := 0,
             lastActive := 0 } :=
  ⟨by decide, (C10_signup_grant DB.empty 1 none none 0 (by decide)).1⟩

/-! ### Claim C8: adjustBalance / update_credits -/

/-- C8: `update_credits` changes the balance by exactly the delta; a
positive delta also raises `total_earned` by the delta, a non-positive
delta leaves `total_earned` unchanged, and `total_earned` never
decreases. -/
theorem C8_adjust_balance (db : DB) (userId : Nat) (delta : Int) (u : User)
    (h : lookupA userId db.users = some u) :
    ∃ u', lookupA userId (update_credits db userId delta).users = some u' ∧
      u'.credits = u.credits + delta ∧
      (0 < delta → u'.totalEarned = u.totalEarned + delta) ∧
      (delta ≤ 0 → u'.totalEarned = u.totalEarned) ∧
      u.totalEarned ≤ u'.totalEarned := by
  rw [update_credits]
  by_cases hd : delta > 0
  · rw [if_pos hd, DB.setUsers]
    refine ⟨⟨u.username, u.credits + delta, u.joinedDate, u.referrerId,
             u.isBanned, u.totalEarned + delta, u.lastActive⟩,
            ?_, rfl, fun _ => rfl, fun hle => absurd hd (not_lt.mpr hle),
            by simp only []; omega⟩
    rw [lookupA_updateA_self, h]
    rfl
  · rw [if_neg hd, DB.setUsers]
    refine ⟨⟨u.username, u.credits + delta, u.joinedDate, u.referrerId,
             u.isBanned, u.totalEarned, u.lastActive⟩,
            ?_, rfl, fun hlt => absurd hlt hd, fun _ => rfl, le_refl _⟩
    rw [lookupA_updateA_self, h]
    rfl

/-- Witness for C8: a concrete account adjusted by +4 and by -2. -/
theorem C8_adjust_balance_witness :
    (∃ u', lookupA 1 (update_credits (add_user DB.empty 1 none none 0) 1
        4).users = some u' ∧
      u'.credits = 5 + 4 ∧
      (0 < (4 : Int) → u'.totalEarned = 0 + 4) ∧
      ((4 : Int) ≤ 0 → u'.totalEarned = 0) ∧
      (0 : Int) ≤ u'.totalEarned) ∧
    (∃ u', lookupA 1 (update_credits (add_user DB.empty 1 none none 0) 1
        (-2)).users = some u' ∧
      u'.credits = 5 + (-2) ∧
      (0 < (-2 : Int) → u'.totalEarned = 0 + (-2)) ∧
      ((-2 : Int) ≤ 0 → u'.totalEarned = 0) ∧
      (0 : Int) ≤ u'.totalEarned) :=
  ⟨C8_adjust_balance (add_user DB.empty 1 none none 0) 1 4
      { username := none, credits := 5, joinedDate := 0, referrerId := none,
        isBanned := false, totalEarned := 0, lastActive := 0 } (by decide),
   C8_adjust_balance (add_user DB.empty 1 none none 0) 1 (-2)
      { username := none, credits := 5, joinedDate := 0, referrerId := none,
        isBanned := false, totalEarned := 0, lastActive := 0 } (by decide)⟩

/-! ### Forward evaluation lemmas for the redemption engine -/

theorem redeem_code_db_claimed {db : DB} {uid : Nat} {code : String}
    (now : Nat) (h : hasClaimed db uid code = true) :
    redeem_code_db db uid code now = (.alreadyClaimed, db) := by
  simp [redeem_code_db, redeemCheck, h]

theorem redeem_code_db_inactive {db : DB} {uid : Nat} {code : String}
    {c : Code} (now : Nat) (h1 : hasClaimed db uid code = false)
    (hc : lookupA code db.codes = some c) (hin : c.isActive = false) :
    redeem_code_db db uid code now = (.inactive, db) := by
  simp [redeem_code_db, redeemCheck, h1, hc, hin]

theorem redeem_code_db_limit {db : DB} {uid : Nat} {code : String}
    {c : Code} (now : Nat) (h1 : hasClaimed db uid code = false)
    (hc : lookupA code db.codes = some c) (hact : c.isActive = true)
    (hlim : c.maxUses ≤ c.currentUses) :
    redeem_code_db db uid code now = (.limitReached, db) := by
  simp [redeem_code_db, redeemCheck, h1, hc, hact, hlim]

theorem redeem_code_db_expired {db : DB} {uid : Nat} {code : String}
    {c : Code} {now : Nat} (h1 : hasClaimed db uid code = false)
    (hc : lookupA code db.codes = some c) (hact : c.isActive = true)
    (hlim : c.currentUses < c.maxUses) (hexp : isExpired c now = true) :
    redeem_code_db db uid code now = (.expired, db) := by
  simp [redeem_code_db, redeemCheck, h1, hc, hact, not_le.mpr hlim, hexp]

theorem redeem_code_db_success {db : DB} {uid : Nat} {code : String}
    {c : Code} {now : Nat} (h1 : hasClaimed db uid code = false)
    (hc : lookupA code db.codes = some c) (hact : c.isActive = true)
    (hlim : c.currentUses < c.maxUses) (hexp : isExpired c now = false) :
    redeem_code_db db uid code now =
      (.success c.amount, redeemApply db uid code c.amount now) := by
  simp [redeem_code_db, redeemCheck, h1, hc, hact, not_le.mpr hlim, hexp]

/-- The transaction body never touches the `redeem_codes` rows of other
codes: its effect on the code table is exactly the conditional-free
`current_uses` increment of the redeemed code. -/
theorem redeemApply_codes (db : DB) (uid : Nat) (code : String)
    (a : Int) (now : Nat) :
    (redeemApply db uid code a now).codes =
      updateA code (fun c => { c with currentUses := c.currentUses + 1 })
        db.codes := by
  rw [redeemApply]
  rw [insertLog]
  split <;> rfl

/-- Effect of the transaction body on the `users` table. -/
theorem redeemApply_users (db : DB) (uid : Nat) (code : String)
    (a : Int) (now : Nat) :
    (redeemApply db uid code a now).users =
      updateA uid (fun u => { u with totalEarned := u.totalEarned + a })
        (updateA uid (fun u => { u with credits := u.credits + a })
          db.users) := by
  rw [redeemApply]
  rw [insertLog]
  split <;> rfl

theorem insertLog_logs (db : DB) (uid : Nat) (code : String) (now : Nat) :
    (insertLog db uid code now).logs =
      if hasClaimed db uid code then db.logs
      else db.logs ++ [⟨uid, code, now⟩] := by
  rw [insertLog]
  split <;> rfl

/-- Effect of the transaction body on the claim log: the `INSERT OR
IGNORE` appends the row exactly when no equal `(user, code)` row exists. -/
theorem redeemApply_logs (db : DB) (uid : Nat) (code : String)
    (a : Int) (now : Nat) :
    (redeemApply db uid code a now).logs =
      if hasClaimed db uid code then db.logs
      else db.logs ++ [⟨uid, code, now⟩] := by
  rw [redeemApply, insertLog_logs]
  rfl

theorem hasClaimed_redeemApply_self (db : DB) (uid : Nat) (code : String)
    (a : Int) (now : Nat) :
    hasClaimed (redeemApply db uid code a now) uid code = true := by
  rw [hasClaimed, redeemApply_logs]
  split
  · rename_i h
    exact h
  · simp [List.any_append]

/-! ### Claim C4: expiry versus use-limit precedence -/

/-- C4 counterexample: a code with `maxUses = 1`, one prior claim, and a
1-minute expiry exceeded (attempt at 61 seconds).  The account 2 never
claimed it, the code is active, past expiry, yet `redeem_code_db` answers
`limit_reached`, not `expired`: the limit check at line 189 of
src/database.py runs before the expiry check at line 193. -/
theorem C4_counterexample :
    hasClaimed ((redeem_code_db
        (create_redeem_code DB.empty "X" 10 1 (some 1) 0) 1 "X" 0).2)
        2 "X" = false ∧
    (lookupA "X" ((redeem_code_db
        (create_redeem_code DB.empty "X" 10 1 (some 1) 0) 1 "X" 0).2).codes)
      = some { amount := 10, maxUses := 1, currentUses := 1,
               expiryMinutes := some 1, createdDate := 0,
               isActive := true } ∧
    isExpired { amount := 10, maxUses := 1, currentUses := 1,
                expiryMinutes := some 1, createdDate := 0,
                isActive := true } 61 = true ∧
    (redeem_code_db ((redeem_code_db
        (create_redeem_code DB.empty "X" 10 1 (some 1) 0) 1 "X" 0).2)
        2 "X" 61).1 = .limitReached ∧
    (redeem_code_db ((redeem_code_db
        (create_redeem_code DB.empty "X" 10 1 (some 1) 0) 1 "X" 0).2)
        2 "X" 61).1 ≠ .expired := by
  decide

/-- C4 amended: for an existing, active code with a positive expiry that
the clock has passed, an account that has not claimed it gets `Expired` —
provided the use limit is not yet reached; when `currentUses ≥ maxUses`
the code answers `LimitReached` instead (the limit check runs first). -/
theorem C4_expired (db : DB) (uid : Nat) (code : String) (now : Nat)
    (c : Code) (hclaim : hasClaimed db uid code = false)
    (hc : lookupA code db.codes = some c) (hact : c.isActive = true)
    (hlim : c.currentUses < c.maxUses) (hexp : isExpired c now = true) :
    redeem_code_db db uid code now = (.expired, db) :=
  redeem_code_db_expired hclaim hc hact hlim hexp

/-- Witness for C4 amended at a concrete expired code with uses left. -/
theorem C4_expired_witness :
    redeem_code_db (create_redeem_code DB.empty "X" 10 5 (some 1) 0)
        1 "X" 61 =
      (.expired, create_redeem_code DB.empty "X" 10 5 (some 1) 0) :=
  C4_expired (create_redeem_code DB.empty "X" 10 5 (some 1) 0) 1 "X" 61
    { amount := 10, maxUses := 5, currentUses := 0, expiryMinutes := some 1,
      createdDate := 0, isActive := true }
    (by decide) (by decide) (by decide) (by decide) (by decide)

/-! ### Claim C6: deactivation permanence -/

/-- C6 counterexample: deactivating code "X" soft-deletes it, but
`create_redeem_code` with the same identifier afterwards rewrites the row
with `is_active = 1`, and a redeem then returns `Success` — so a core
operation does set `active` back to true and the code is not permanently
unusable. -/
theorem C6_counterexample :
    (lookupA "X" (deactivate_code
        (create_redeem_code DB.empty "X" 10 5 none 0) "X").codes).map
      Code.isActive = some false ∧
    (lookupA "X" (create_redeem_code (deactivate_code
        (create_redeem_code DB.empty "X" 10 5 none 0) "X")
        "X" 10 5 none 1).codes).map Code.isActive = some true ∧
    (redeem_code_db (create_redeem_code (deactivate_code
        (create_redeem_code DB.empty "X" 10 5 none 0) "X")
        "X" 10 5 none 1) 1 "X" 2).1 = .success 10 := by
  decide

/-- C6 amended: while a code's row has `active = false`, every redeem
against it by an account that has not claimed it returns `Inactive` with
no state change (an account that has claimed it gets `AlreadyClaimed`),
and `deactivate_code`, `delete_redeem_code`, `delete_user`,
`update_credits`, `add_user` and `redeem_code_db` never turn its `active`
flag back to true; only `create_redeem_code` on the same identifier does
(see the counterexample). -/
theorem C6_inactive_permanent (db : DB) (code : String) (c : Code)
    (hc : lookupA code db.codes = some c) (hin : c.isActive = false) :
    (∀ uid now, hasClaimed db uid code = false →
        redeem_code_db db uid code now = (.inactive, db)) ∧
    (∀ uid now, hasClaimed db uid code = true →
        redeem_code_db db uid code now = (.alreadyClaimed, db)) ∧
    (∀ c', (lookupA code (deactivate_code db c').codes).map Code.isActive
        ≠ some true) ∧
    (∀ c', (lookupA code (delete_redeem_code db c').codes).map
        Code.isActive ≠ some true) ∧
    (∀ u', (lookupA code (delete_user db u').codes).map Code.isActive
        ≠ some true) ∧
    (∀ u' a', (lookupA code (update_credits db u' a').codes).map
        Code.isActive ≠ some true) ∧
    (∀ u' un r t, (lookupA code (add_user db u' un r t).codes).map
        Code.isActive ≠ some true) ∧
    (∀ u' c' t', (lookupA code ((redeem_code_db db u' c' t').2).codes).map
        Code.isActive ≠ some true) := by
  refine ⟨fun uid now h1 => redeem_code_db_inactive now h1 hc hin,
          fun uid now h1 => redeem_code_db_claimed now h1,
          fun c' => ?_, fun c' => ?_, fun u' => ?_, fun u' a' => ?_,
          fun u' un r t => ?_, fun u' c' t' => ?_⟩
  · rw [deactivate_code, DB.setCodes]
    by_cases h : code = c'
    · subst h
      rw [lookupA_updateA_self, hc]
      intro hco
      simp at hco
    · rw [lookupA_updateA_ne _ _ h, hc]
      intro hco
      simp [hin] at hco
  · rw [delete_redeem_code, DB.setCodes]
    by_cases h : code = c'
    · subst h
      rw [lookupA_eraseA_self]
      exact Option.noConfusion
    · rw [lookupA_eraseA_ne _ h, hc]
      intro hco
      simp [hin] at hco
  · show (lookupA code db.codes).map Code.isActive ≠ some true
    rw [hc]
    intro hco
    simp [hin] at hco
  · rw [update_credits]
    split <;>
      · show (lookupA code db.codes).map Code.isActive ≠ some true
        rw [hc]
        intro hco
        simp [hin] at hco
  · rw [add_user]
    split <;>
      · show (lookupA code db.codes).map Code.isActive ≠ some true
        rw [hc]
        intro hco
        simp [hin] at hco
  · rw [redeem_code_db]
    cases hch : redeemCheck db u' c' t' with
    | inl r =>
        show (lookupA code db.codes).map Code.isActive ≠ some true
        rw [hc]
        intro hco
        simp [hin] at hco
    | inr a =>
        show (lookupA code (redeemApply db u' c' a t').codes).map
            Code.isActive ≠ some true
        rw [redeemApply_codes]
        by_cases h : code = c'
        · subst h
          rw [lookupA_updateA_self, hc]
          intro hco
          simp [hin] at hco
        · rw [lookupA_updateA_ne _ _ h, hc]
          intro hco
          simp [hin] at hco

/-- Witness for C6 amended: a concrete deactivated code. -/
theorem C6_inactive_permanent_witness :
    redeem_code_db (deactivate_code
        (create_redeem_code DB.empty "X" 10 5 none 0) "X") 1 "X" 2 =
      (.inactive,
       deactivate_code (create_redeem_code DB.empty "X" 10 5 none 0) "X") :=
  (C6_inactive_permanent
      (deactivate_code (create_redeem_code DB.empty "X" 10 5 none 0) "X")
      "X"
      { amount := 10, maxUses := 5, currentUses := 0, expiryMinutes := none,
        createdDate := 0, isActive := false }
      (by decide) (by decide)).1 1 2 (by decide)

/-! ### Claim C3: one success then AlreadyClaimed forever -/

theorem redeemApply_lookup_user {db : DB} {uid : Nat} {u : User}
    (code : String) (a : Int) (now : Nat)
    (h : lookupA uid db.users = some u) :
    lookupA uid (redeemApply db uid code a now).users =
      some ⟨u.username, u.credits + a, u.joinedDate, u.referrerId,
            u.isBanned, u.totalEarned + a, u.lastActive⟩ := by
  rw [redeemApply_users, lookupA_updateA_self, lookupA_updateA_self, h]
  rfl

/-- Sequential re-runs of `redeem_code_db` by one account against one
code, at the given sequence of clock values. -/
def redeemMany (db : DB) (uid : Nat) (code : String) :
    List Nat → List RedeemResult × DB
  | [] => ([], db)
  | t :: ts =>
      ((redeem_code_db db uid code t).1 ::
         (redeemMany (redeem_code_db db uid code t).2 uid code ts).1,
       (redeemMany (redeem_code_db db uid code t).2 uid code ts).2)

theorem redeemMany_claimed {db : DB} {uid : Nat} {code : String}
    (h : hasClaimed db uid code = true) (ts : List Nat) :
    redeemMany db uid code ts =
      (List.replicate ts.length .alreadyClaimed, db) := by
  induction ts with
  | nil => rfl
  | cons t ts ih =>
      rw [redeemMany, redeem_code_db_claimed t h]
      simp only [ih]
      rfl

/-- C3: when an account's first attempt on a code succeeds, its balance
and `total_earned` rise by the code's amount once; every further attempt
by the same account answers `AlreadyClaimed` and leaves the whole store
untouched. -/
theorem C3_redeem_idempotent (db : DB) (uid : Nat) (code : String)
    (now0 : Nat) (c : Code) (u : User) (ts : List Nat)
    (hclaim : hasClaimed db uid code = false)
    (hc : lookupA code db.codes = some c) (hact : c.isActive = true)
    (hlim : c.currentUses < c.maxUses) (hexp : isExpired c now0 = false)
    (hu : lookupA uid db.users = some u) :
    (redeem_code_db db uid code now0).1 = .success c.amount ∧
    lookupA uid ((redeem_code_db db uid code now0).2).users =
      some ⟨u.username, u.credits + c.amount, u.joinedDate, u.referrerId,
            u.isBanned, u.totalEarned + c.amount, u.lastActive⟩ ∧
    (redeemMany (redeem_code_db db uid code now0).2 uid code ts).1 =
      List.replicate ts.length .alreadyClaimed ∧
    (redeemMany (redeem_code_db db uid code now0).2 uid code ts).2 =
      (redeem_code_db db uid code now0).2 := by
  have hr := redeem_code_db_success hclaim hc hact hlim hexp
  rw [hr]
  have hcl2 := hasClaimed_redeemApply_self db uid code c.amount now0
  have hm := redeemMany_claimed hcl2 ts
  exact ⟨rfl, redeemApply_lookup_user code c.amount now0 hu,
         by rw [show (RedeemResult.success c.amount,
             redeemApply db uid code c.amount now0).2 =
             redeemApply db uid code c.amount now0 from rfl, hm],
         by rw [show (RedeemResult.success c.amount,
             redeemApply db uid code c.amount now0).2 =
             redeemApply db uid code c.amount now0 from rfl, hm]⟩

/-- Witness for C3: account 1 redeems code "X" once, then twice more. -/
theorem C3_redeem_idempotent_witness :
    (redeem_code_db (add_user (create_redeem_code DB.empty "X" 10 5 none 0)
        1 none none 0) 1 "X" 0).1 = .success 10 ∧
    lookupA 1 ((redeem_code_db (add_user
        (create_redeem_code DB.empty "X" 10 5 none 0)
        1 none none 0) 1 "X" 0).2).users =
      some ⟨none, 5 + 10, 0, none, false, 0 + 10, 0⟩ ∧
    (redeemMany (redeem_code_db (add_user
        (create_redeem_code DB.empty "X" 10 5 none 0)
        1 none none 0) 1 "X" 0).2 1 "X" [1, 2]).1 =
      List.replicate 2 .alreadyClaimed ∧
    (redeemMany (redeem_code_db (add_user
        (create_redeem_code DB.empty "X" 10 5 none 0)
        1 none none 0) 1 "X" 0).2 1 "X" [1, 2]).2 =
      (redeem_code_db (add_user (create_redeem_code DB.empty "X" 10 5 none 0)
        1 none none 0) 1 "X" 0).2 :=
  C3_redeem_idempotent
    (add_user (create_redeem_code DB.empty "X" 10 5 none 0) 1 none none 0)
    1 "X" 0
    { amount := 10, maxUses := 5, currentUses := 0, expiryMinutes := none,
      createdDate := 0, isActive := true }
    { username := none, credits := 5, joinedDate := 0, referrerId := none,
      isBanned := false, totalEarned := 0, lastActive := 0 }
    [1, 2] (by decide) (by decide) (by decide) (by decide) (by decide)
    (by decide)

/-! ### Claim C7: idempotent registration and single referral bonus -/

/-- Registration is a no-op whenever `get_user` finds the id. -/
theorem cmd_start_register_existing (db' : DB) (uid : Nat)
    (un' : Option String) (r' : Option Nat) (t' : Nat) (x : User)
    (hx : lookupA uid db'.users = some x) :
    cmd_start_register db' uid un' r' t' = db' := by
  rw [cmd_start_register.eq_def, hx]

/-- C7 counterexample: account 0 exists with balance 5; account 1 is
registered for the first time with referrer id 0 — a non-null referrer
differing from the new account's own id, which is even stored on the new
row — yet account 0's balance stays 5: `main.py` line 194 guards the
credit with `if referrer_id:` and Python's truthiness treats 0 as falsy. -/
theorem C7_counterexample :
    lookupA 1 (add_user DB.empty 0 none none 0).users = none ∧
    (lookupA 0 (add_user DB.empty 0 none none 0).users).map User.credits =
      some 5 ∧
    (lookupA 1 (cmd_start_register (add_user DB.empty 0 none none 0)
        1 none (some 0) 1).users).map User.referrerId = some (some 0) ∧
    (lookupA 0 (cmd_start_register (add_user DB.empty 0 none none 0)
        1 none (some 0) 1).users).map User.credits = some 5 ∧
    (5 : Int) ≠ 5 + 3 := by
  decide

/-- C7 amended: registration is idempotent — a call with an id already
present changes nothing — and a first-time registration naming an
existing referrer other than oneself credits that referrer with the fixed
bonus 3 exactly once, provided the referrer id is truthy (non-zero);
repeating the registration grants nothing further.  A referrer id of 0 is
stored on the new row but skipped by the `if referrer_id:` guard. -/
theorem C7_referral_once (db : DB) (uid rid : Nat) (un : Option String)
    (t : Nat) (ru : User)
    (hnew : lookupA uid db.users = none) (hne : rid ≠ uid)
    (hz : rid ≠ 0)
    (hr : lookupA rid db.users = some ru) :
    (∃ ru', lookupA rid (cmd_start_register db uid un (some rid) t).users =
        some ru' ∧ ru'.credits = ru.credits + 3 ∧
        ru'.totalEarned = ru.totalEarned + 3) ∧
    (∀ un' r' t', cmd_start_register
        (cmd_start_register db uid un (some rid) t) uid un' r' t' =
        cmd_start_register db uid un (some rid) t) ∧
    (∀ (db' : DB) un' r' t' x, lookupA uid db'.users = some x →
        cmd_start_register db' uid un' r' t' = db') := by
  have hadd : (add_user db uid un (some rid) t).users =
      db.users ++ [(uid, ⟨un, 5, t, some rid, false, 0, t⟩)] := by
    rw [add_user, hnew, DB.setUsers]
  have hreg : cmd_start_register db uid un (some rid) t =
      update_credits (add_user db uid un (some rid) t) rid 3 := by
    rw [cmd_start_register, hnew]
    simp [hne, hz]
  refine ⟨?_, ?_, ?_⟩
  · rw [hreg, update_credits, if_pos (by norm_num : (3 : Int) > 0),
        DB.setUsers, lookupA_updateA_self, hadd,
        lookupA_append_of_some _ hr]
    exact ⟨_, rfl, rfl, rfl⟩
  · intro un' r' t'
    have hne2 : uid ≠ rid := fun hh => hne hh.symm
    have hx : lookupA uid (cmd_start_register db uid un (some rid)
        t).users = some ⟨un, 5, t, some rid, false, 0, t⟩ := by
      rw [hreg, update_credits, if_pos (by norm_num : (3 : Int) > 0),
          DB.setUsers, lookupA_updateA_ne _ _ hne2, hadd,
          lookupA_append_of_none _ hnew]
      simp [lookupA]
    exact cmd_start_register_existing _ uid un' r' t' _ hx
  · intro db' un' r' t' x hx
    exact cmd_start_register_existing db' uid un' r' t' x hx

/-- Witness for C7: account 1 registered with referrer 2. -/
theorem C7_referral_once_witness :
    (∃ ru', lookupA 2 (cmd_start_register (add_user DB.empty 2 none none 0)
        1 none (some 2) 1).users = some ru' ∧
        ru'.credits = 5 + 3 ∧ ru'.totalEarned = 0 + 3) ∧
    (∀ un' r' t', cmd_start_register
        (cmd_start_register (add_user DB.empty 2 none none 0)
          1 none (some 2) 1) 1 un' r' t' =
        cmd_start_register (add_user DB.empty 2 none none 0)
          1 none (some 2) 1) ∧
    (∀ (db' : DB) un' r' t' x, lookupA 1 db'.users = some x →
        cmd_start_register db' 1 un' r' t' = db') :=
  C7_referral_once (add_user DB.empty 2 none none 0) 1 2 none 1
    { username := none, credits := 5, joinedDate := 0, referrerId := none,
      isBanned := false, totalEarned := 0, lastActive := 0 }
    (by decide) (by decide) (by decide) (by decide)

/-! ### Claim C5: balance conservation over an event log -/

/-- An event touching one account: an `update_credits` call (admin
adjustment, or the referral grant `update_credits(referrer, 3)`), or a
`redeem_code_db` call. -/
inductive AccountEv where
  | adjust (delta : Int)
  | redeem (code : String) (now : Nat)
  deriving Repr, DecidableEq

/-- Replay a sequence of events against the store. -/
def replayEvents (uid : Nat) : DB → List AccountEv → DB
  | db, [] => db
  | db, .adjust d :: evs => replayEvents uid (update_credits db uid d) evs
  | db, .redeem code t :: evs =>
      replayEvents uid ((redeem_code_db db uid code t).2) evs

/-- The balance delta of each event along the replay: an adjustment is its
delta, a redeem is the credited amount when it succeeds and 0 otherwise. -/
def eventDeltas (uid : Nat) : DB → List AccountEv → List Int
  | _, [] => []
  | db, .adjust d :: evs =>
      d :: eventDeltas uid (update_credits db uid d) evs
  | db, .redeem code t :: evs =>
      (match (redeem_code_db db uid code t).1 with
       | .success a => a
       | _ => 0) ::
        eventDeltas uid ((redeem_code_db db uid code t).2) evs

/-- Every redeem in the sequence returns `Success` with a non-negative
amount (the claim speaks of successful redemptions; code amounts are
non-negative in every admin-created code). -/
def goodEvents (uid : Nat) : DB → List AccountEv → Bool
  | _, [] => true
  | db, .adjust d :: evs => goodEvents uid (update_credits db uid d) evs
  | db, .redeem code t :: evs =>
      match redeem_code_db db uid code t with
      | (.success a, db2) => decide (0 ≤ a) && goodEvents uid db2 evs
      | _ => false

/-- Sum of the positive deltas of a sequence. -/
def posSum : List Int → Int
  | [] => 0
  | d :: l => (if 0 < d then d else 0) + posSum l

/-- Sum of the non-positive deltas of a sequence. -/
def negSum : List Int → Int
  | [] => 0
  | d :: l => (if d ≤ 0 then d else 0) + negSum l

theorem posSum_cons (d : Int) (l : List Int) :
    posSum (d :: l) = (if 0 < d then d else 0) + posSum l := rfl

theorem sum_eq_posSum_add_negSum (l : List Int) :
    l.sum = posSum l + negSum l := by
  induction l with
  | nil => simp [posSum, negSum]
  | cons d l ih =>
      rw [List.sum_cons, ih, posSum, negSum]
      by_cases h : 0 < d
      · rw [if_pos h, if_neg (not_le.mpr h)]
        ring
      · rw [if_neg h, if_pos (not_lt.mp h)]
        ring

theorem redeemCheck_not_success (db : DB) (uid : Nat) (code : String)
    (now : Nat) (r : RedeemResult) (a : Int)
    (h : redeemCheck db uid code now = Sum.inl r) :
    r ≠ .success a := by
  rw [redeemCheck] at h
  repeat' split at h
  all_goals
    first
      | exact (Sum.noConfusion h)
      | (injection h with h2
         subst h2
         intro hc
         exact RedeemResult.noConfusion hc)

/-- A `Success` return pins the final state to the transaction's effect. -/
theorem redeem_success_apply {db db' : DB} {uid : Nat} {code : String}
    {now : Nat} {a : Int}
    (h : redeem_code_db db uid code now = (.success a, db')) :
    db' = redeemApply db uid code a now := by
  rw [redeem_code_db] at h
  cases hch : redeemCheck db uid code now with
  | inl r =>
      rw [hch] at h
      injection h with h1 h2
      exact absurd h1 (redeemCheck_not_success db uid code now r a hch)
  | inr b =>
      rw [hch] at h
      injection h with h1 h2
      injection h1 with h3
      subst h3
      exact h2.symm

/-- Effect of `update_credits` on the targeted row, both signs at once. -/
theorem update_credits_lookup {db : DB} {uid : Nat} {u : User} (d : Int)
    (h : lookupA uid db.users = some u) :
    ∃ u1, lookupA uid (update_credits db uid d).users = some u1 ∧
      u1.credits = u.credits + d ∧
      u1.totalEarned = u.totalEarned + (if 0 < d then d else 0) := by
  rw [update_credits]
  by_cases hd : d > 0
  · rw [if_pos hd, DB.setUsers, lookupA_updateA_self, h]
    exact ⟨_, rfl, rfl, by rw [if_pos hd]⟩
  · rw [if_neg hd, DB.setUsers, lookupA_updateA_self, h]
    refine ⟨_, rfl, rfl, ?_⟩
    rw [if_neg hd]
    show u.totalEarned = u.totalEarned + 0
    ring

/-- Core replay lemma: under `goodEvents`, the final balance is the
starting balance plus the sum of all deltas, and `total_earned` grows by
exactly the positive deltas. -/
theorem replay_balance (uid : Nat) (evs : List AccountEv) : ∀ (db : DB)
    (u : User), lookupA uid db.users = some u →
    goodEvents uid db evs = true →
    ∃ u', lookupA uid (replayEvents uid db evs).users = some u' ∧
      u'.credits = u.credits + (eventDeltas uid db evs).sum ∧
      u'.totalEarned = u.totalEarned + posSum (eventDeltas uid db evs) := by
  induction evs with
  | nil =>
      intro db u hu hg
      exact ⟨u, hu, by simp [eventDeltas, replayEvents],
             by simp [eventDeltas, replayEvents, posSum]⟩
  | cons ev evs ih =>
      intro db u hu hg
      cases ev with
      | adjust d =>
          obtain ⟨u1, hu1, hc1, ht1⟩ := update_credits_lookup d hu
          rw [goodEvents] at hg
          obtain ⟨u', hu', hc', ht'⟩ :=
            ih (update_credits db uid d) u1 hu1 hg
          rw [replayEvents, eventDeltas]
          refine ⟨u', hu', ?_, ?_⟩
          · rw [List.sum_cons, hc', hc1]
            ring
          · rw [posSum_cons, ht', ht1]
            ring
      | redeem code t =>
          rw [goodEvents] at hg
          cases hr : redeem_code_db db uid code t with
          | mk r db2 =>
              rw [hr] at hg
              cases r with
              | success a =>
                  rw [Bool.and_eq_true] at hg
                  obtain ⟨ha, hg'⟩ := hg
                  have ha2 : (0 : Int) ≤ a := of_decide_eq_true ha
                  have hdb2 : db2 = redeemApply db uid code a t :=
                    redeem_success_apply hr
                  subst hdb2
                  have hu1 := redeemApply_lookup_user code a t hu
                  obtain ⟨u', hu', hc', ht'⟩ :=
                    ih (redeemApply db uid code a t) _ hu1 hg'
                  have hc2 : u'.credits = (u.credits + a) +
                      (eventDeltas uid (redeemApply db uid code a t)
                        evs).sum := hc'
                  have ht2 : u'.totalEarned = (u.totalEarned + a) +
                      posSum (eventDeltas uid (redeemApply db uid code a t)
                        evs) := ht'
                  rw [replayEvents, eventDeltas, hr]
                  simp only [List.sum_cons]
                  refine ⟨u', hu', ?_, ?_⟩
                  · rw [hc2]
                    ring
                  · rw [posSum_cons, ht2]
                    by_cases hpos : 0 < a
                    · rw [if_pos hpos]
                      ring
                    · have hz : a = 0 := le_antisymm (not_lt.mp hpos) ha2
                      subst hz
                      rw [if_neg hpos]
                      ring
              | alreadyClaimed => exact absurd hg Bool.false_ne_true
              | invalid => exact absurd hg Bool.false_ne_true
              | inactive => exact absurd hg Bool.false_ne_true
              | limitReached => exact absurd hg Bool.false_ne_true
              | expired => exact absurd hg Bool.false_ne_true

/-- C5 counterexample: a freshly created account with an empty event log
already violates the claimed equation — its balance is the signup grant
5 while the claimed sum of deltas is 0. -/
theorem C5_counterexample :
    (lookupA 1 (replayEvents 1 (add_user DB.empty 1 none none 0)
        []).users).map User.credits = some 5 ∧
    eventDeltas 1 (add_user DB.empty 1 none none 0) [] = [] ∧
    posSum [] + negSum [] = 0 ∧ (5 : Int) ≠ 0 := by
  decide

/-- C5 amended: for an account created by `add_user` and any sequence of
successful redemptions and adjustments, the final balance equals the
signup grant 5 plus `totalGranted` plus the sum of the non-positive
deltas, where `totalGranted` equals the sum of the positive deltas. -/
theorem C5_balance_conservation (db : DB) (uid : Nat)
    (un : Option String) (rid : Option Nat) (t0 : Nat)
    (evs : List AccountEv) (hnew : lookupA uid db.users = none)
    (hg : goodEvents uid (add_user db uid un rid t0) evs = true) :
    ∃ u', lookupA uid (replayEvents uid (add_user db uid un rid t0)
        evs).users = some u' ∧
      u'.credits = 5 +
        posSum (eventDeltas uid (add_user db uid un rid t0) evs) +
        negSum (eventDeltas uid (add_user db uid un rid t0) evs) ∧
      u'.totalEarned =
        posSum (eventDeltas uid (add_user db uid un rid t0) evs) := by
  have hu : lookupA uid (add_user db uid un rid t0).users =
      some ⟨un, 5, t0, rid, false, 0, t0⟩ := by
    rw [add_user, hnew, DB.setUsers, lookupA_append_of_none _ hnew]
    simp [lookupA]
  obtain ⟨u', h1, h2, h3⟩ := replay_balance uid evs _ _ hu hg
  refine ⟨u', h1, ?_, ?_⟩
  · rw [h2, sum_eq_posSum_add_negSum]
    show (5 : Int) + _ = 5 + _ + _
    ring
  · rw [h3]
    show (0 : Int) + _ = _
    ring

/-- Witness for C5 amended: account 1 receives +4, a 10-credit code, and
-2; final balance 5 + 14 - 2. -/
theorem C5_balance_conservation_witness :
    ∃ u', lookupA 1 (replayEvents 1
        (add_user (create_redeem_code DB.empty "X" 10 5 none 0)
          1 none none 0)
        [.adjust 4, .redeem "X" 1, .adjust (-2)]).users = some u' ∧
      u'.credits = 5 +
        posSum (eventDeltas 1
          (add_user (create_redeem_code DB.empty "X" 10 5 none 0)
            1 none none 0)
          [.adjust 4, .redeem "X" 1, .adjust (-2)]) +
        negSum (eventDeltas 1
          (add_user (create_redeem_code DB.empty "X" 10 5 none 0)
            1 none none 0)
          [.adjust 4, .redeem "X" 1, .adjust (-2)]) ∧
      u'.totalEarned =
        posSum (eventDeltas 1
          (add_user (create_redeem_code DB.empty "X" 10 5 none 0)
            1 none none 0)
          [.adjust 4, .redeem "X" 1, .adjust (-2)]) :=
  C5_balance_conservation (create_redeem_code DB.empty "X" 10 5 none 0)
    1 none none 0 [.adjust 4, .redeem "X" 1, .adjust (-2)]
    (by decide) (by decide)

/-! ### Claim C1: currentUses equals the count of redemption records -/

/-- Number of `redeem_logs` rows referencing a code. -/
def countLogs (db : DB) (code : String) : Nat :=
  (db.logs.filter (fun e => e.code = code)).length

/-- The spec's central invariant: every `redeem_codes` row's
`current_uses` equals the number of `redeem_logs` rows for that code. -/
def UsesInv (db : DB) : Prop :=
  ∀ p ∈ db.codes, p.2.currentUses = (countLogs db p.1 : Int)

instance instDecidableUsesInv (db : DB) : Decidable (UsesInv db) :=
  inferInstanceAs (Decidable
    (∀ p ∈ db.codes, p.2.currentUses = (countLogs db p.1 : Int)))

theorem mem_eraseA {κ α : Type} [DecidableEq κ] {k : κ}
    {l : List (κ × α)} {p : κ × α} (h : p ∈ eraseA k l) :
    p ∈ l ∧ p.1 ≠ k := by
  induction l with
  | nil => simp [eraseA] at h
  | cons q l ih =>
      obtain ⟨k', v⟩ := q
      rw [eraseA] at h
      by_cases h2 : k = k'
      · rw [if_pos h2] at h
        exact ⟨List.mem_cons_of_mem _ (ih h).1, (ih h).2⟩
      · rw [if_neg h2] at h
        rcases List.mem_cons.mp h with h3 | h3
        · subst h3
          exact ⟨List.mem_cons_self _ _, fun hh => h2 hh.symm⟩
        · exact ⟨List.mem_cons_of_mem _ (ih h3).1, (ih h3).2⟩

theorem redeemCheck_inr_not_claimed {db : DB} {uid : Nat} {code : String}
    {now : Nat} {a : Int} (h : redeemCheck db uid code now = Sum.inr a) :
    hasClaimed db uid code = false := by
  cases hcb : hasClaimed db uid code
  · rfl
  · rw [redeemCheck, if_pos hcb] at h
    exact Sum.noConfusion h

theorem countLogs_redeemApply (db : DB) (uid : Nat) (code : String)
    (a : Int) (now : Nat) (q : String)
    (hclaim : hasClaimed db uid code = false) :
    countLogs (redeemApply db uid code a now) q =
      countLogs db q + (if code = q then 1 else 0) := by
  rw [countLogs, redeemApply_logs, if_neg (by simp [hclaim]),
      List.filter_append, List.length_append]
  by_cases h : code = q
  · subst h
    simp [countLogs]
  · simp [countLogs, h]

theorem UsesInv_redeemApply {db : DB} {uid : Nat} {code : String}
    {a : Int} {now : Nat} (h : UsesInv db)
    (hclaim : hasClaimed db uid code = false) :
    UsesInv (redeemApply db uid code a now) := by
  intro p hp
  rw [countLogs_redeemApply db uid code a now p.1 hclaim]
  rw [redeemApply_codes, updateA_eq_map] at hp
  obtain ⟨q, hq, rfl⟩ := List.mem_map.mp hp
  have hinv := h q hq
  by_cases h2 : q.1 = code
  · rw [if_pos h2]
    show q.2.currentUses + 1 =
      ((countLogs db q.1 + if code = q.1 then 1 else 0 : Nat) : Int)
    rw [if_pos h2.symm]
    push_cast
    omega
  · rw [if_neg h2]
    show q.2.currentUses =
      ((countLogs db q.1 + if code = q.1 then 1 else 0 : Nat) : Int)
    rw [if_neg (fun hh => h2 hh.symm)]
    push_cast
    omega

theorem UsesInv_redeem {db : DB} (h : UsesInv db) (uid : Nat)
    (code : String) (now : Nat) :
    UsesInv (redeem_code_db db uid code now).2 := by
  rw [redeem_code_db]
  cases hch : redeemCheck db uid code now with
  | inl r => exact h
  | inr a => exact UsesInv_redeemApply h (redeemCheck_inr_not_claimed hch)

/-- C1 amended: the invariant is preserved by `redeem_code_db`,
`deactivate_code` and `delete_redeem_code` unconditionally; by
`create_redeem_code` only when no redemption record references the code
(the `INSERT OR REPLACE` resets `current_uses` to 0 while leaving the
logs in place); and by `delete_user` only when the deleted account holds
no redemption records (the user's log rows are deleted without
decrementing any code's `current_uses`). -/
theorem C1_uses_counter (db : DB) (h : UsesInv db) :
    (∀ uid code now, UsesInv (redeem_code_db db uid code now).2) ∧
    (∀ code, UsesInv (deactivate_code db code)) ∧
    (∀ code, UsesInv (delete_redeem_code db code)) ∧
    (∀ code a m e now, countLogs db code = 0 →
        UsesInv (create_redeem_code db code a m e now)) ∧
    (∀ uid, (∀ l ∈ db.logs, l.userId ≠ uid) →
        UsesInv (delete_user db uid)) := by
  refine ⟨fun uid code now => UsesInv_redeem h uid code now,
          fun code => ?_, fun code => ?_,
          fun code a m e now hzero => ?_, fun uid hnone => ?_⟩
  · intro p hp
    rw [deactivate_code, DB.setCodes, updateA_eq_map] at hp
    obtain ⟨q, hq, rfl⟩ := List.mem_map.mp hp
    have hinv := h q hq
    by_cases h2 : q.1 = code
    · rw [if_pos h2]
      exact hinv
    · rw [if_neg h2]
      exact hinv
  · intro p hp
    rw [delete_redeem_code, DB.setCodes] at hp
    exact h p (mem_eraseA hp).1
  · intro p hp
    rw [create_redeem_code, DB.setCodes, replaceA] at hp
    rcases List.mem_append.mp hp with h3 | h3
    · exact h p (mem_eraseA h3).1
    · rcases List.mem_singleton.mp h3 with rfl
      show (0 : Int) = (countLogs db code : Int)
      rw [hzero]
      rfl
  · have hl : db.logs.filter (fun e => e.userId ≠ uid) = db.logs := by
      rw [List.filter_eq_self]
      intro e he
      simpa using hnone e he
    have hlogs : (delete_user db uid).logs = db.logs := by
      rw [delete_user]
      exact hl
    have hcodes : (delete_user db uid).codes = db.codes := by
      rw [delete_user]
    intro p hp
    rw [hcodes] at hp
    have hinv := h p hp
    rw [countLogs, hlogs]
    rw [countLogs] at hinv
    exact hinv

/-- Witness for C1 amended: the invariant holds through a create, two
redeems and a deactivation on a concrete store. -/
theorem C1_uses_counter_witness :
    UsesInv (redeem_code_db ((redeem_code_db
        (create_redeem_code DB.empty "X" 10 5 none 0) 1 "X" 0).2)
        2 "X" 1).2 ∧
    UsesInv (deactivate_code ((redeem_code_db
        (create_redeem_code DB.empty "X" 10 5 none 0) 1 "X" 0).2) "X") :=
  ⟨(C1_uses_counter ((redeem_code_db
        (create_redeem_code DB.empty "X" 10 5 none 0) 1 "X" 0).2)
      (by decide)).1 2 "X" 1,
   (C1_uses_counter ((redeem_code_db
        (create_redeem_code DB.empty "X" 10 5 none 0) 1 "X" 0).2)
      (by decide)).2.1 "X"⟩

/-- C1 counterexample: after account 1 redeems code "X" (one record,
`current_uses = 1`), `delete_user 1` erases the record but leaves
`current_uses = 1`, and re-`create_redeem_code` of "X" resets
`current_uses` to 0 while the record remains — both operations break the
claimed equality. -/
theorem C1_counterexample :
    UsesInv ((redeem_code_db (create_redeem_code DB.empty "X" 10 5 none 0)
        1 "X" 0).2) ∧
    ¬ UsesInv (delete_user ((redeem_code_db
        (create_redeem_code DB.empty "X" 10 5 none 0) 1 "X" 0).2) 1) ∧
    ¬ UsesInv (create_redeem_code ((redeem_code_db
        (create_redeem_code DB.empty "X" 10 5 none 0) 1 "X" 0).2)
        "X" 10 5 none 1) := by
  decide

/-! ### Claim C2: N accounts race a code with maxUses = M -/

/-- Serialized redemption attempts: each listed account runs
`redeem_code_db` to completion before the next starts. -/
def redeemSeq (db : DB) (code : String) (now : Nat) :
    List Nat → List RedeemResult × DB
  | [] => ([], db)
  | u :: us =>
      ((redeem_code_db db u code now).1 ::
         (redeemSeq (redeem_code_db db u code now).2 code now us).1,
       (redeemSeq (redeem_code_db db u code now).2 code now us).2)

theorem hasClaimed_redeemApply_other {db : DB} {uid u' : Nat}
    {code code' : String} (a : Int) (now : Nat) (hne : u' ≠ uid) :
    hasClaimed (redeemApply db uid code a now) u' code' =
      hasClaimed db u' code' := by
  rw [hasClaimed, redeemApply_logs]
  split
  · rfl
  · rw [List.any_append]
    have hne2 : uid ≠ u' := Ne.symm hne
    simp [hasClaimed, hne2]

theorem lookupA_redeemApply_code {db : DB} {code : String} {c : Code}
    (uid : Nat) (a : Int) (now : Nat)
    (hc : lookupA code db.codes = some c) :
    lookupA code (redeemApply db uid code a now).codes =
      some ⟨c.amount, c.maxUses, c.currentUses + 1, c.expiryMinutes,
            c.createdDate, c.isActive⟩ := by
  rw [redeemApply_codes, lookupA_updateA_self, hc]
  rfl

/-- Core counting lemma for serialized attempts by distinct fresh
accounts: the first `maxUses - currentUses` attempts succeed, the rest
hit the limit, and `current_uses` rises by exactly the success count. -/
theorem redeemSeq_counts (code : String) (now : Nat) :
    ∀ (us : List Nat) (db : DB) (c : Code),
    lookupA code db.codes = some c → c.isActive = true →
    isExpired c now = false → us.Nodup →
    (∀ u ∈ us, hasClaimed db u code = false) →
    (redeemSeq db code now us).1 =
      List.replicate (min us.length (c.maxUses - c.currentUses).toNat)
          (.success c.amount) ++
        List.replicate (us.length -
          min us.length (c.maxUses - c.currentUses).toNat) .limitReached ∧
    lookupA code ((redeemSeq db code now us).2).codes =
      some ⟨c.amount, c.maxUses, c.currentUses +
        ((min us.length (c.maxUses - c.currentUses).toNat : Nat) : Int),
        c.expiryMinutes, c.createdDate, c.isActive⟩ := by
  intro us
  induction us with
  | nil =>
      intro db c hc hact hexp hnd hfresh
      refine ⟨by simp [redeemSeq], ?_⟩
      rw [redeemSeq, hc]
      norm_num
  | cons u us ih =>
      intro db c hc hact hexp hnd hfresh
      have hfr : hasClaimed db u code = false :=
        hfresh u (List.mem_cons_self u us)
      by_cases hlim : c.maxUses ≤ c.currentUses
      · have hr := redeem_code_db_limit now hfr hc hact hlim
        have hk : (c.maxUses - c.currentUses).toNat = 0 := by omega
        obtain ⟨h1, h2⟩ := ih db c hc hact hexp (List.Nodup.of_cons hnd)
          (fun v hv => hfresh v (List.mem_cons_of_mem u hv))
        rw [redeemSeq, hr]
        constructor
        · rw [hk] at h1 ⊢
          simp only [Nat.min_zero, List.replicate, Nat.sub_zero,
            List.nil_append] at h1 ⊢
          rw [h1]
        · rw [hk] at h2 ⊢
          simpa using h2
      · push_neg at hlim
        have hr := redeem_code_db_success hfr hc hact hlim hexp
        have hc2 := lookupA_redeemApply_code u c.amount now hc
        have hfresh2 : ∀ v ∈ us,
            hasClaimed (redeemApply db u code c.amount now) v code
              = false := by
          intro v hv
          have hvne : v ≠ u := by
            intro hh
            subst hh
            exact (List.nodup_cons.mp hnd).1 hv
          rw [hasClaimed_redeemApply_other c.amount now hvne]
          exact hfresh v (List.mem_cons_of_mem u hv)
        obtain ⟨h1, h2⟩ := ih (redeemApply db u code c.amount now) _ hc2
          hact hexp (List.Nodup.of_cons hnd) hfresh2
        have hk : (c.maxUses - (c.currentUses + 1)).toNat =
            (c.maxUses - c.currentUses).toNat - 1 := by omega
        have hk1 : 1 ≤ (c.maxUses - c.currentUses).toNat := by omega
        rw [redeemSeq, hr]
        constructor
        · show RedeemResult.success c.amount ::
              (redeemSeq (redeemApply db u code c.amount now) code now
                us).1 = _
          rw [h1, hk]
          have hmin : min (u :: us).length
              (c.maxUses - c.currentUses).toNat =
              min us.length ((c.maxUses - c.currentUses).toNat - 1) + 1 := by
            simp only [List.length_cons]
            omega
          rw [hmin]
          have hsub : (u :: us).length -
              (min us.length ((c.maxUses - c.currentUses).toNat - 1) + 1) =
              us.length -
                min us.length ((c.maxUses - c.currentUses).toNat - 1) := by
            simp only [List.length_cons]
            omega
          rw [hsub]
          rfl
        · show lookupA code ((redeemSeq
              (redeemApply db u code c.amount now) code now us).2).codes = _
          rw [h2, hk]
          have harith : (c.currentUses + 1) +
              ((min us.length ((c.maxUses - c.currentUses).toNat - 1)
                : Nat) : Int) =
              c.currentUses + ((min (u :: us).length
                (c.maxUses - c.currentUses).toNat : Nat) : Int) := by
            simp only [List.length_cons]
            push_cast
            omega
          rw [harith]

/-- C2 amended (serialized form): with `maxUses = M ≥ 0`, `currentUses =
0`, `N > M` distinct accounts none of which claimed the code, running the
attempts one after another yields exactly `M` `Success` results, `N - M`
`LimitReached` results, and a final `currentUses` of exactly `M`.  The
concurrent form of the claim fails: see the interleaving counterexample. -/
theorem C2_limit_serialized (db : DB) (code : String) (now : Nat)
    (c : Code) (us : List Nat)
    (hc : lookupA code db.codes = some c) (hact : c.isActive = true)
    (hexp : isExpired c now = false) (hcu : c.currentUses = 0)
    (hM : 0 ≤ c.maxUses) (hN : c.maxUses < (us.length : Int))
    (hnd : us.Nodup)
    (hfresh : ∀ u ∈ us, hasClaimed db u code = false) :
    (redeemSeq db code now us).1.count (.success c.amount) =
      c.maxUses.toNat ∧
    (redeemSeq db code now us).1.count .limitReached =
      us.length - c.maxUses.toNat ∧
    (∃ c', lookupA code ((redeemSeq db code now us).2).codes = some c' ∧
      c'.currentUses = c.maxUses) := by
  obtain ⟨h1, h2⟩ := redeemSeq_counts code now us db c hc hact hexp hnd
    hfresh
  have hmin : min us.length (c.maxUses - c.currentUses).toNat =
      c.maxUses.toNat := by omega
  refine ⟨?_, ?_, ?_⟩
  · rw [h1, hmin, List.count_append, List.count_replicate,
        List.count_replicate]
    simp
  · rw [h1, hmin, List.count_append, List.count_replicate,
        List.count_replicate]
    simp
  · refine ⟨_, h2, ?_⟩
    show c.currentUses + _ = c.maxUses
    rw [hmin]
    omega

/-- Witness for C2 amended: maxUses 1, two distinct fresh accounts. -/
theorem C2_limit_serialized_witness :
    (redeemSeq (create_redeem_code DB.empty "X" 10 1 none 0) "X" 0
        [1, 2]).1.count (.success 10) = 1 ∧
    (redeemSeq (create_redeem_code DB.empty "X" 10 1 none 0) "X" 0
        [1, 2]).1.count .limitReached = 2 - 1 ∧
    (∃ c', lookupA "X" ((redeemSeq (create_redeem_code DB.empty "X"
        10 1 none 0) "X" 0 [1, 2]).2).codes = some c' ∧
      c'.currentUses = 1) :=
  C2_limit_serialized (create_redeem_code DB.empty "X" 10 1 none 0)
    "X" 0
    { amount := 10, maxUses := 1, currentUses := 0, expiryMinutes := none,
      createdDate := 0, isActive := true }
    [1, 2] (by decide) (by decide) (by decide) (by decide) (by decide)
    (by decide) (by decide) (by decide)

/-- Progress state of one in-flight `redeem_code_db` coroutine: before
its checks, after its checks passed (the transaction not yet begun), or
finished with a result. -/
inductive Phase where
  | start
  | validated (amount : Int)
  | done (r : RedeemResult)
  deriving Repr, DecidableEq

/-- One coroutine attempting to redeem, identified by its account id. -/
structure Thread where
  uid : Nat
  phase : Phase
  deriving Repr, DecidableEq

/-- Interleaved execution of concurrent `redeem_code_db` calls against
one code: the validation span (lines 165-197 of src/database.py) reads
the shared state without writing, and the transaction (lines 199-224)
applies atomically.  The scheduler may run other coroutines between a
thread's validation and its transaction — exactly the `await` boundary in
the source. -/
inductive RStep (code : String) (now : Nat) :
    DB × List Thread → DB × List Thread → Prop where
  | checkFail (db : DB) (pre post : List Thread) (u : Nat)
      (r : RedeemResult) (h : redeemCheck db u code now = Sum.inl r) :
      RStep code now (db, pre ++ ⟨u, .start⟩ :: post)
        (db, pre ++ ⟨u, .done r⟩ :: post)
  | checkPass (db : DB) (pre post : List Thread) (u : Nat) (a : Int)
      (h : redeemCheck db u code now = Sum.inr a) :
      RStep code now (db, pre ++ ⟨u, .start⟩ :: post)
        (db, pre ++ ⟨u, .validated a⟩ :: post)
  | commit (db : DB) (pre post : List Thread) (u : Nat) (a : Int) :
      RStep code now (db, pre ++ ⟨u, .validated a⟩ :: post)
        (redeemApply db u code a now, pre ++ ⟨u, .done (.success a)⟩ :: post)

/-- C2 counterexample: two distinct accounts race a fresh code with
`maxUses = 1`.  Both validation phases pass on the same snapshot, both
transactions commit, both attempts finish with `Success`, and the final
`current_uses` is 2 while `max_uses` is 1 — the claimed bound fails under
concurrency because the limit check is outside the transaction. -/
theorem C2_counterexample :
    Relation.ReflTransGen (RStep "X" 0)
      (create_redeem_code DB.empty "X" 10 1 none 0,
       [⟨1, .start⟩, ⟨2, .start⟩])
      (redeemApply (redeemApply (create_redeem_code DB.empty "X" 10 1
          none 0) 1 "X" 10 0) 2 "X" 10 0,
       [⟨1, .done (.success 10)⟩, ⟨2, .done (.success 10)⟩]) ∧
    (lookupA "X" (redeemApply (redeemApply (create_redeem_code DB.empty
        "X" 10 1 none 0) 1 "X" 10 0) 2 "X" 10 0).codes).map
      Code.currentUses = some 2 ∧
    (lookupA "X" (redeemApply (redeemApply (create_redeem_code DB.empty
        "X" 10 1 none 0) 1 "X" 10 0) 2 "X" 10 0).codes).map
      Code.maxUses = some 1 := by
  refine ⟨?_, by decide, by decide⟩
  refine Relation.ReflTransGen.head
    (RStep.checkPass _ [] [⟨2, .start⟩] 1 10 (by decide)) ?_
  refine Relation.ReflTransGen.head
    (RStep.checkPass _ [⟨1, .validated 10⟩] [] 2 10 (by decide)) ?_
  refine Relation.ReflTransGen.head
    (RStep.commit _ [] [⟨2, .validated 10⟩] 1 10) ?_
  refine Relation.ReflTransGen.head
    (RStep.commit _ [⟨1, .done (.success 10)⟩] [] 2 10) ?_
  exact Relation.ReflTransGen.refl

end OsintLookup
